import Mathlib

/-
Verification of the VoxelCraft sound-effect generator
(src/tools/generate_sfx.py, function generate_clunk).

The generator synthesizes a short percussive "clunk": a sine oscillator with a
per-sample multiplicative pitch drop, blended with uniform noise, shaped by an
exponential envelope, quantized to signed 16-bit samples and written as a
mono 44100 Hz PCM WAV file.

Embedding conventions:
  * Python floats are idealized as exact arithmetic: the parameter layer and
    the quantization policy live in ℚ (computable, decidable), the signal math
    (sin / exp / pi) lives in ℝ.
  * Python `int(x)` truncates toward zero; it is embedded as `pyInt`.
  * The per-sample noise `(random.random() - 0.5) * 0.5` is abstracted as an
    arbitrary function `noise : ℕ → ℝ`, one independent draw per sample.
  * The filesystem side (os.makedirs / wave.open / incremental writeframes)
    is embedded as the step model `runClunk`, with an optional injected write
    failure, producing the run result, the directories existing afterwards and
    the bytes visible at the destination path.
-/

namespace VoxelCraft

/-- sample_rate = 44100 (generate_sfx.py line 9). -/
def sample_rate : ℚ := 44100

/-- duration = 0.15 (generate_sfx.py line 10). -/
def duration : ℚ := 3 / 20

/-- Python `int()` applied to a real quantity: truncation toward zero
(floor for non-negative arguments, ceiling for negative ones). -/
def pyInt (q : ℚ) : ℤ := if 0 ≤ q then ⌊q⌋ else ⌈q⌉

/-- n_samples = int(sample_rate * duration) (generate_sfx.py line 21),
with the two fixed constants generalized to parameters. -/
def n_samples (sr dur : ℚ) : ℤ := pyInt (sr * dur)

/-- Modelled from the spec: the sample-count formula the specification
mandates, `round(sample_rate × duration)`. -/
def n_samplesSpec (sr dur : ℚ) : ℤ := round (sr * dur)

/-- sample = max(-32768, min(32767, sample)) (generate_sfx.py line 43):
saturating clamp to the signed 16-bit range. -/
def clamp16 (z : ℤ) : ℤ := max (-32768) (min 32767 z)

/-- Quantization as the code performs it (generate_sfx.py lines 42-43):
`sample = int(value * 32767.0)` followed by the saturating clamp. -/
def quantize (value : ℚ) : ℤ := clamp16 (pyInt (value * 32767))

/-- Modelled from the spec: the quantization policy the specification
mandates, `raw = round(sample × 32767.0)` then clamp to [-32768, 32767]. -/
def quantizeSpec (value : ℚ) : ℤ := clamp16 (round (value * 32767))

/-- Modelled from the spec (amended): truncation toward zero described
independently of `pyInt` — drop the fractional part by flooring the
magnitude and restoring the sign. -/
def truncTowardZero (q : ℚ) : ℤ := if q < 0 then -⌊-q⌋ else ⌊q⌋

/-- envelope = math.exp(-t * 25) (generate_sfx.py line 27). -/
noncomputable def envelope (t : ℝ) : ℝ := Real.exp (-t * 25)

/-- frequency *= 0.9995 (generate_sfx.py line 36): the per-sample pitch drop. -/
def freqUpdate (f : ℝ) : ℝ := f * 0.9995

/-- The oscillator frequency used by sample i: the initial 80.0
(generate_sfx.py line 11) pushed through i pitch-drop updates. -/
def freqUsed (i : ℕ) : ℝ := freqUpdate^[i] 80

/-- One iteration of the synthesis loop (generate_sfx.py lines 23-39): given
the loop index i and the current oscillator frequency f, produce the emitted
floating-point value and the updated frequency.  The sine uses the current
(pre-decay) frequency; the decay is applied once, afterwards. -/
noncomputable def clunkStep (noise : ℕ → ℝ) (sr : ℝ) (i : ℕ) (f : ℝ) : ℝ × ℝ :=
  let t : ℝ := (i : ℝ) / sr
  let signal := Real.sin (2 * Real.pi * f * t)
  let value := (signal + noise i) * envelope t
  (value, freqUpdate f)

/-- The synthesis loop itself, threading the mutable frequency through the
iterations: `clunkLoop noise sr i f fuel` emits the values of iterations
i, i+1, ..., i+fuel-1 starting from current frequency f. -/
noncomputable def clunkLoop (noise : ℕ → ℝ) (sr : ℝ) : ℕ → ℝ → ℕ → List ℝ
  | _, _, 0 => []
  | i, f, fuel + 1 =>
      (clunkStep noise sr i f).1 :: clunkLoop noise sr (i + 1) (clunkStep noise sr i f).2 fuel

/-- The full sample sequence of generate_clunk, parametrized: the loop runs
`int(sample_rate * duration)` times (an empty range when that is ≤ 0), with
loop index starting at 0 and frequency at 80.0. -/
noncomputable def generate_clunk_samples (noise : ℕ → ℝ) (sr dur : ℚ) : List ℝ :=
  clunkLoop noise (sr : ℝ) 0 80 (n_samples sr dur).toNat

/-- Two bytes, little-endian. -/
def le16 (v : ℕ) : List ℕ := [v % 256, v / 256 % 256]

/-- Four bytes, little-endian. -/
def le32 (v : ℕ) : List ℕ :=
  [v % 256, v / 256 % 256, v / 65536 % 256, v / 16777216 % 256]

/-- struct.pack with format <h (generate_sfx.py line 45): the sample as a
2-byte little-endian signed integer, i.e. the little-endian bytes of its
two's-complement residue mod 2^16. -/
def packInt16 (z : ℤ) : List ℕ := le16 (z % 65536).toNat

/-- Modelled from the spec: the container header the Python wave module emits
(the source delegates header framing to the standard library, which is not
part of the repository): a 44-byte minimal chunk layout — RIFF size, WAVE,
fmt chunk declaring linear PCM, channel count, sample rate, byte rate, block
alignment and bits per sample for mono 16-bit audio, then the data chunk
declaring a payload of 2 bytes per sample. -/
def wavHeader (sr n : ℕ) : List ℕ :=
  [82, 73, 70, 70] ++ le32 (36 + 2 * n) ++ [87, 65, 86, 69] ++
  [102, 109, 116, 32] ++ le32 16 ++ le16 1 ++ le16 1 ++
  le32 sr ++ le32 (sr * 2) ++ le16 2 ++ le16 16 ++
  [100, 97, 116, 97] ++ le32 (2 * n)

/-- The complete container: header followed by the packed samples in
generation order. -/
def wavBytes (sr : ℕ) (qs : List ℤ) : List ℕ :=
  wavHeader sr qs.length ++ List.flatMap qs packInt16

/-- Read back two little-endian bytes. -/
def readLE16 (bs : List ℕ) (off : ℕ) : ℕ := bs.getD off 0 + 256 * bs.getD (off + 1) 0

/-- Read back four little-endian bytes. -/
def readLE32 (bs : List ℕ) (off : ℕ) : ℕ := readLE16 bs off + 65536 * readLE16 bs (off + 2)

/-- Decode a 2-byte little-endian two's-complement signed integer. -/
def decodeInt16 (bs : List ℕ) : ℤ :=
  if (readLE16 bs 0 : ℤ) < 32768 then (readLE16 bs 0 : ℤ) else (readLE16 bs 0 : ℤ) - 65536

/-- A destination path, split into its directory components (what
os.path.dirname returns, as a component list — empty for a bare filename)
and the file name itself. -/
structure Filepath where
  dirs : List String
  name : String

/-- The error surface of a run of generate_clunk. -/
inductive RunError
  | emptyDirname
  | ioFailure
deriving DecidableEq

/-- Everything observable after a run: the result, the directories existing
afterwards, and the bytes visible at the destination path (none when the
file was never created). -/
structure RunOut where
  res : Except RunError Unit
  dirsAfter : List (List String)
  fileAt : Option (List ℕ)

/-- All ancestor directories os.makedirs creates for a component list:
every non-empty initial segment. -/
def ancestors : List String → List (List String)
  | [] => []
  | d :: ds => [d] :: (ancestors ds).map (d :: ·)

/-- The sequence of write operations the code issues against the destination
file: the header, then one write per sample (wav_file.writeframes inside the
loop, generate_sfx.py line 45). -/
def writeChunks (qs : List ℤ) : List (List ℕ) :=
  wavHeader 44100 qs.length :: qs.map packInt16

/-- The filesystem-facing behaviour of generate_clunk (generate_sfx.py
lines 14-45), with the quantized samples abstracted as `qs` and an optional
injected I/O failure `failAt` (the index of the first write that fails):

  1. os.makedirs(os.path.dirname(filepath), exist_ok=True): raises when the
     directory component is empty, otherwise creates every missing ancestor
     and never complains about existing ones;
  2. wave.open(filepath, 'w') opens the destination path itself and the
     frames are written to it incrementally;
  3. a failing write raises: the error propagates (nothing catches it) and
     the bytes already written stay visible at the destination path. -/
def runClunk (p : Filepath) (dirs0 : List (List String)) (failAt : Option ℕ)
    (qs : List ℤ) : RunOut :=
  if p.dirs = [] then ⟨.error .emptyDirname, dirs0, none⟩
  else
    let dirs1 := dirs0 ++ ancestors p.dirs
    match failAt with
    | none => ⟨.ok (), dirs1, some (writeChunks qs).flatten⟩
    | some k =>
        if k < (writeChunks qs).length then
          ⟨.error .ioFailure, dirs1, some ((writeChunks qs).take k).flatten⟩
        else ⟨.ok (), dirs1, some (writeChunks qs).flatten⟩

/-- Python int() agrees with the sign-mirrored-floor description of
truncation toward zero. -/
theorem pyInt_eq_truncTowardZero (q : ℚ) : pyInt q = truncTowardZero q := by
  unfold pyInt truncTowardZero
  rcases le_or_lt 0 q with h | h
  · rw [if_pos h, if_neg (not_lt.mpr h)]
  · rw [if_neg (not_le.mpr h), if_pos h]
    have hc := Int.ceil_neg (α := ℚ) (a := -q)
    simpa using hc

/-- Python int() of an integer is that integer. -/
theorem pyInt_intCast (z : ℤ) : pyInt ((z : ℚ)) = z := by
  unfold pyInt
  split <;> simp

/-- Truncation toward zero lands in the unit window above the floor. -/
theorem pyInt_window (q : ℚ) : ⌊q⌋ ≤ pyInt q ∧ pyInt q ≤ ⌊q⌋ + 1 := by
  unfold pyInt
  split
  · exact ⟨le_rfl, by omega⟩
  · exact ⟨Int.floor_le_ceil q, Int.ceil_le_floor_add_one q⟩

/-- Rounding also lands in the unit window above the floor. -/
theorem round_window (q : ℚ) : ⌊q⌋ ≤ round q ∧ round q ≤ ⌊q⌋ + 1 := by
  rw [round_eq]
  refine ⟨Int.floor_le_floor (by linarith), ?_⟩
  have h : ⌊q + 1/2⌋ ≤ ⌊q + 1⌋ := Int.floor_le_floor (by linarith)
  have h1 : ⌊q + (1:ℤ)⌋ = ⌊q⌋ + 1 := Int.floor_add_int q 1
  push_cast at h1
  omega

/-- The saturating clamp moves two inputs no further apart. -/
theorem clamp16_sub_le (x y : ℤ) : (clamp16 x - clamp16 y).natAbs ≤ (x - y).natAbs := by
  unfold clamp16
  simp only [max_def, min_def]
  split_ifs <;> omega

/-- The saturating clamp always lands in the signed 16-bit range. -/
theorem clamp16_mem (z : ℤ) : -32768 ≤ clamp16 z ∧ clamp16 z ≤ 32767 := by
  unfold clamp16
  simp only [max_def, min_def]
  split_ifs <;> omega

/-- With the fixed constants, int(sample_rate * duration) is 6615. -/
theorem n_samples_default : n_samples sample_rate duration = 6615 := by
  unfold n_samples sample_rate duration pyInt
  rw [if_pos (by norm_num : (0:ℚ) ≤ 44100 * (3/20))]
  norm_num

/-- The synthesis loop emits exactly one value per unit of fuel. -/
theorem clunkLoop_length (noise : ℕ → ℝ) (sr : ℝ) :
    ∀ (fuel i : ℕ) (f : ℝ), (clunkLoop noise sr i f fuel).length = fuel := by
  intro fuel
  induction fuel with
  | zero => intro i f; rfl
  | succ n ih => intro i f; simp [clunkLoop, ih]

/-- C1: corrected.  The code quantizes by `int(value * 32767.0)` — truncation
toward zero — and then clamps, not by rounding then clamping: at the input
1/40000 truncation-before-clamping yields 0 while the claimed
rounding-before-clamping yields 1. -/
theorem c1_counterexample :
    quantize (1 / 40000) = 0 ∧ quantizeSpec (1 / 40000) = 1 ∧
      quantize (1 / 40000) ≠ quantizeSpec (1 / 40000) := by
  have h1 : pyInt (1 / 40000 * 32767) = 0 := by
    unfold pyInt
    rw [if_pos (by norm_num : (0:ℚ) ≤ 1 / 40000 * 32767)]
    norm_num
  have h2 : round ((1 : ℚ) / 40000 * 32767) = 1 := by
    rw [round_eq]
    norm_num
  refine ⟨?_, ?_, ?_⟩
  · unfold quantize; rw [h1]; decide
  · unfold quantizeSpec; rw [h2]; decide
  · unfold quantize quantizeSpec; rw [h1, h2]; decide

/-- C1: amended claim.  Quantization maps a Sample by truncating
`sample × 32767.0` toward zero and then clamping to [-32768, 32767]; this
agrees with the spec's rounding-before-clamping policy to within one
quantization level, and exactly whenever the scaled sample is an integer. -/
theorem c1_quantize_truncates_then_clamps :
    ∀ v : ℚ,
      quantize v = clamp16 (truncTowardZero (v * 32767)) ∧
      (quantize v - quantizeSpec v).natAbs ≤ 1 ∧
      ((v * 32767).den = 1 → quantize v = quantizeSpec v) := by
  intro v
  refine ⟨by rw [quantize, pyInt_eq_truncTowardZero], ?_, ?_⟩
  · have hw1 := pyInt_window (v * 32767)
    have hw2 := round_window (v * 32767)
    have hcl := clamp16_sub_le (pyInt (v * 32767)) (round (v * 32767))
    unfold quantize quantizeSpec
    omega
  · intro hden
    have hv : (((v * 32767).num : ℤ) : ℚ) = v * 32767 := (Rat.den_eq_one_iff _).mp hden
    unfold quantize quantizeSpec
    rw [← hv, pyInt_intCast, round_intCast]

/-- C1: witness for the amended claim at the inputs 1/2 (truncation and
rounding differ by exactly one level) and 0 (an integer scaling, where the
two policies agree). -/
theorem c1_witness :
    quantize (1 / 2) = clamp16 (truncTowardZero (1 / 2 * 32767)) ∧
      (quantize (1 / 2) - quantizeSpec (1 / 2)).natAbs ≤ 1 ∧
      ((0:ℚ) * 32767).den = 1 ∧ quantize 0 = quantizeSpec 0 := by
  refine ⟨(c1_quantize_truncates_then_clamps (1 / 2)).1,
    (c1_quantize_truncates_then_clamps (1 / 2)).2.1, ?_, ?_⟩
  · rw [zero_mul]; exact Rat.den_zero
  · exact (c1_quantize_truncates_then_clamps 0).2.2 (by rw [zero_mul]; exact Rat.den_zero)

/-- C2: corrected.  The code computes the sample count as
`int(sample_rate * duration)` — truncation — not rounding: with the valid
parameters sample_rate = 1000 and duration = 3/2000 the code produces 1
sample while round(1000 × 3/2000) = 2. -/
theorem c2_counterexample :
    (0:ℚ) < 1000 ∧ (0:ℚ) < 3 / 2000 ∧
      n_samples 1000 (3 / 2000) = 1 ∧ n_samplesSpec 1000 (3 / 2000) = 2 ∧
      n_samples 1000 (3 / 2000) ≠ n_samplesSpec 1000 (3 / 2000) := by
  have h1 : n_samples 1000 (3 / 2000) = 1 := by
    unfold n_samples pyInt
    rw [if_pos (by norm_num : (0:ℚ) ≤ 1000 * (3 / 2000))]
    norm_num
  have h2 : n_samplesSpec 1000 (3 / 2000) = 2 := by
    unfold n_samplesSpec
    rw [round_eq]
    norm_num
  exact ⟨by norm_num, by norm_num, h1, h2, by omega⟩

/-- C2: amended claim.  For all valid parameters the generated sample count
equals int(sample_rate × duration), i.e. the truncation of
sample_rate × duration, which is round(sample_rate × duration) or one less;
with the fixed defaults it equals 6615, which coincides with
round(44100 × 0.15). -/
theorem c2_count_truncated :
    (∀ sr dur : ℚ, 0 < sr → 0 < dur →
        n_samples sr dur = n_samplesSpec sr dur ∨
          n_samples sr dur = n_samplesSpec sr dur - 1) ∧
      n_samples sample_rate duration = 6615 ∧
      n_samplesSpec sample_rate duration = 6615 ∧
      ∀ (noise : ℕ → ℝ) (sr dur : ℚ),
        (generate_clunk_samples noise sr dur).length = (n_samples sr dur).toNat := by
  refine ⟨?_, n_samples_default, ?_, ?_⟩
  · intro sr dur hsr hdur
    have hpos : (0:ℚ) ≤ sr * dur := le_of_lt (mul_pos hsr hdur)
    have hfl : pyInt (sr * dur) = ⌊sr * dur⌋ := if_pos hpos
    have hw2 := round_window (sr * dur)
    unfold n_samples n_samplesSpec
    omega
  · unfold n_samplesSpec sample_rate duration
    rw [round_eq]
    norm_num
  · intro noise sr dur
    unfold generate_clunk_samples
    exact clunkLoop_length noise (sr : ℝ) _ 0 80

/-- C2: witness for the amended claim at the default parameters. -/
theorem c2_witness :
    (0:ℚ) < 44100 ∧ (0:ℚ) < 3 / 20 ∧
      (n_samples 44100 (3 / 20) = n_samplesSpec 44100 (3 / 20) ∨
        n_samples 44100 (3 / 20) = n_samplesSpec 44100 (3 / 20) - 1) ∧
      n_samples sample_rate duration = 6615 ∧
      (generate_clunk_samples (fun _ => 0) sample_rate duration).length =
        (n_samples sample_rate duration).toNat :=
  ⟨by norm_num, by norm_num,
    c2_count_truncated.1 44100 (3 / 20) (by norm_num) (by norm_num),
    c2_count_truncated.2.1,
    c2_count_truncated.2.2.2 (fun _ => 0) sample_rate duration⟩

/-- C6: confirmed.  Quantization saturates: +2.0 maps to 32767, -2.0 maps to
-32768, any scaled value beyond either boundary is clipped to that boundary,
and every quantized sample lies in [-32768, 32767] (no wrap-around). -/
theorem c6_saturating :
    quantize 2 = 32767 ∧ quantize (-2) = -32768 ∧
      (∀ v : ℚ, 32767 ≤ pyInt (v * 32767) → quantize v = 32767) ∧
      (∀ v : ℚ, pyInt (v * 32767) ≤ -32768 → quantize v = -32768) ∧
      ∀ v : ℚ, -32768 ≤ quantize v ∧ quantize v ≤ 32767 := by
  have hp2 : pyInt ((2:ℚ) * 32767) = 65534 := by
    rw [show ((2:ℚ) * 32767) = ((65534 : ℤ) : ℚ) by norm_num, pyInt_intCast]
  have hm2 : pyInt ((-2:ℚ) * 32767) = -65534 := by
    rw [show ((-2:ℚ) * 32767) = ((-65534 : ℤ) : ℚ) by norm_num, pyInt_intCast]
  refine ⟨?_, ?_, ?_, ?_, ?_⟩
  · unfold quantize; rw [hp2]; decide
  · unfold quantize; rw [hm2]; decide
  · intro v hv
    unfold quantize clamp16
    omega
  · intro v hv
    unfold quantize clamp16
    omega
  · intro v
    exact clamp16_mem (pyInt (v * 32767))

/-- C6: witness, applying the clipping clauses at the out-of-range samples
+2.0 and -2.0. -/
theorem c6_witness :
    32767 ≤ pyInt ((2:ℚ) * 32767) ∧ quantize 2 = 32767 ∧
      pyInt ((-2:ℚ) * 32767) ≤ -32768 ∧ quantize (-2) = -32768 ∧
      -32768 ≤ quantize (1 / 3) ∧ quantize (1 / 3) ≤ 32767 := by
  have hp2 : (32767 : ℤ) ≤ pyInt ((2:ℚ) * 32767) := by
    rw [show ((2:ℚ) * 32767) = ((65534 : ℤ) : ℚ) by norm_num, pyInt_intCast]
    decide
  have hm2 : pyInt ((-2:ℚ) * 32767) ≤ -32768 := by
    rw [show ((-2:ℚ) * 32767) = ((-65534 : ℤ) : ℚ) by norm_num, pyInt_intCast]
    decide
  exact ⟨hp2, c6_saturating.2.2.1 2 hp2, hm2, c6_saturating.2.2.2.1 (-2) hm2,
    (c6_saturating.2.2.2.2 (1 / 3)).1, (c6_saturating.2.2.2.2 (1 / 3)).2⟩

/-- Closed form of the loop's emitted values: the value at offset j uses the
frequency decayed exactly j times and the time step (i + j) / sr. -/
theorem clunkLoop_getD (noise : ℕ → ℝ) (sr : ℝ) :
    ∀ (fuel j i : ℕ) (f : ℝ), j < fuel →
      (clunkLoop noise sr i f fuel).getD j 0 =
        (Real.sin (2 * Real.pi * (f * 0.9995 ^ j) * (((i + j : ℕ) : ℝ) / sr)) +
            noise (i + j)) * envelope (((i + j : ℕ) : ℝ) / sr) := by
  intro fuel
  induction fuel with
  | zero => intro j i f hj; omega
  | succ n ih =>
      intro j i f hj
      cases j with
      | zero =>
          simp only [clunkLoop, List.getD_cons_zero, clunkStep, Nat.add_zero, pow_zero,
            mul_one]
      | succ m =>
          simp only [clunkLoop, List.getD_cons_succ]
          rw [ih m (i + 1) (clunkStep noise sr i f).2 (by omega)]
          have hfreq : (clunkStep noise sr i f).2 * (0.9995:ℝ) ^ m = f * 0.9995 ^ (m + 1) := by
            show freqUpdate f * (0.9995:ℝ) ^ m = f * 0.9995 ^ (m + 1)
            unfold freqUpdate
            rw [pow_succ]
            ring
          have hidx : i + 1 + m = i + (m + 1) := by omega
          rw [hfreq, hidx]

/-- The frequency used at sample i is the base frequency decayed i times. -/
theorem freqUsed_eq (i : ℕ) : freqUsed i = 80 * 0.9995 ^ i := by
  induction i with
  | zero => simp [freqUsed]
  | succ n ih =>
      unfold freqUsed at ih ⊢
      rw [Function.iterate_succ_apply', ih]
      unfold freqUpdate
      rw [pow_succ]
      ring

/-- Nonpositive products give an empty Python range. -/
theorem n_samples_nonpos {sr dur : ℚ} (h : sr * dur ≤ 0) : (n_samples sr dur).toNat = 0 := by
  unfold n_samples pyInt
  rcases eq_or_lt_of_le h with heq | hlt
  · rw [heq]
    simp
  · rw [if_neg (not_le.mpr hlt)]
    have hc : ⌈sr * dur⌉ ≤ 0 := by
      have := Int.ceil_le_ceil (α := ℚ) (le_of_lt hlt)
      simpa using this
    omega

/-- C5: confirmed.  Each emitted sample i is
(sin(2π · (80 · 0.9995^i) · t_i) + noise_i) · exp(-t_i · 25) with
t_i = i / 44100: the oscillator uses the pre-decay frequency for the step
(decayed exactly i times, once per preceding sample), and the sample combines
signal, noise and envelope exactly as claimed. -/
theorem c5_sample_formula :
    ∀ (noise : ℕ → ℝ) (i : ℕ), i < (n_samples sample_rate duration).toNat →
      (generate_clunk_samples noise sample_rate duration).getD i 0 =
        (Real.sin (2 * Real.pi * (80 * 0.9995 ^ i) * ((i : ℝ) / 44100)) + noise i) *
          Real.exp (-((i : ℝ) / 44100) * 25) := by
  intro noise i hi
  unfold generate_clunk_samples
  rw [clunkLoop_getD noise _ _ i 0 80 hi]
  have hsr : ((sample_rate : ℚ) : ℝ) = 44100 := by norm_num [sample_rate]
  simp only [Nat.zero_add, hsr, envelope]

/-- C5: witness at sample index 0 with the zero noise sequence. -/
theorem c5_witness :
    0 < (n_samples sample_rate duration).toNat ∧
      (generate_clunk_samples (fun _ => 0) sample_rate duration).getD 0 0 =
        (Real.sin (2 * Real.pi * (80 * 0.9995 ^ (0:ℕ)) * (((0:ℕ) : ℝ) / 44100)) + 0) *
          Real.exp (-(((0:ℕ) : ℝ) / 44100) * 25) := by
  have h0 : 0 < (n_samples sample_rate duration).toNat := by
    rw [n_samples_default]
    decide
  exact ⟨h0, c5_sample_formula (fun _ => 0) 0 h0⟩

/-- C7: counterexample to the claim as stated.  The claim quantifies over all
n > 0, but with a single sample (n = 1) the final sample is the first sample,
so the frequency used at the final sample equals — is not strictly less
than — the frequency used at the first sample, even though
pitch_decay_factor = 0.9995 < 1. -/
theorem c7_counterexample :
    0 < 1 ∧ freqUsed (1 - 1) = freqUsed 0 ∧ ¬ freqUsed (1 - 1) < freqUsed 0 :=
  ⟨Nat.one_pos, rfl, lt_irrefl _⟩

/-- C7: amended claim.  The oscillator frequency is non-increasing from each
sample to the next, and for n ≥ 2 samples the frequency used at the final
sample (index n - 1) is strictly less than the frequency used at the first. -/
theorem c7_pitch_monotone :
    (∀ i : ℕ, freqUsed (i + 1) ≤ freqUsed i) ∧
      ∀ n : ℕ, 2 ≤ n → freqUsed (n - 1) < freqUsed 0 := by
  constructor
  · intro i
    rw [freqUsed_eq, freqUsed_eq, pow_succ]
    have h1 : (0:ℝ) ≤ 80 * 0.9995 ^ i := by positivity
    nlinarith
  · intro n hn
    rw [freqUsed_eq, freqUsed_eq, pow_zero, mul_one]
    have h1 : (0.9995:ℝ) ^ (n - 1) < 1 :=
      pow_lt_one₀ (by norm_num) (by norm_num) (by omega)
    nlinarith

/-- C7: witness, one decay step down and the strict drop across two samples. -/
theorem c7_witness : freqUsed 1 ≤ freqUsed 0 ∧ freqUsed (2 - 1) < freqUsed 0 :=
  ⟨c7_pitch_monotone.1 0, c7_pitch_monotone.2 2 (by norm_num)⟩

/-- C8: confirmed.  The envelope exp(-t · 25) is exactly 1 at t = 0 and is
strictly decreasing in t. -/
theorem c8_envelope :
    envelope 0 = 1 ∧ ∀ t₁ t₂ : ℝ, t₁ < t₂ → envelope t₂ < envelope t₁ := by
  constructor
  · unfold envelope
    norm_num
  · intro t₁ t₂ h
    unfold envelope
    exact Real.exp_lt_exp.2 (by nlinarith)

/-- C8: witness comparing the envelope at t = 0 and t = 1. -/
theorem c8_witness : envelope 0 = 1 ∧ (0:ℝ) < 1 ∧ envelope 1 < envelope 0 :=
  ⟨c8_envelope.1, by norm_num, c8_envelope.2 0 1 (by norm_num)⟩

/-- C3: counterexample to the claim as stated.  generate_clunk performs no
parameter validation: with sample_rate = 44100 and duration = -1 the range
int(sample_rate * duration) is empty, so the generator silently produces the
empty sample sequence and the run still reports success (writing a
header-only container) instead of failing fast with InvalidParameters. -/
theorem c3_counterexample :
    generate_clunk_samples (fun _ => 0) 44100 (-1) = [] ∧
      (runClunk ⟨["a"], "clunk.wav"⟩ [] none []).res = .ok () := by
  constructor
  · unfold generate_clunk_samples
    rw [n_samples_nonpos (by norm_num : (44100:ℚ) * (-1) ≤ 0)]
    rfl
  · rfl

/-- C3: amended claim.  There is no fail-fast validation: whenever
sample_rate × duration ≤ 0 (in particular when exactly one of them is zero or
negative) the generator silently yields the empty sequence, and the run with
an empty sample list still succeeds, producing a header-only container. -/
theorem c3_no_validation :
    ∀ (noise : ℕ → ℝ) (sr dur : ℚ), sr * dur ≤ 0 →
      generate_clunk_samples noise sr dur = [] ∧
        ∀ (p : Filepath) (dirs0 : List (List String)), p.dirs ≠ [] →
          (runClunk p dirs0 none []).res = .ok () := by
  intro noise sr dur h
  constructor
  · unfold generate_clunk_samples
    rw [n_samples_nonpos h]
    rfl
  · intro p dirs0 hp
    unfold runClunk
    rw [if_neg hp]

/-- C3: witness at sample_rate = 44100, duration = -1. -/
theorem c3_witness :
    (44100:ℚ) * (-1) ≤ 0 ∧
      generate_clunk_samples (fun _ => 0) 44100 (-1) = [] ∧
      (runClunk ⟨["a"], "x.wav"⟩ [] none []).res = .ok () := by
  have h : (44100:ℚ) * (-1) ≤ 0 := by norm_num
  have hc := c3_no_validation (fun _ => 0) 44100 (-1) h
  exact ⟨h, hc.1, hc.2 ⟨["a"], "x.wav"⟩ [] (by simp)⟩

/-- Indexing an append below the length of the left part reads the left part. -/
theorem getD_append_left_aux :
    ∀ (l m : List ℕ) (n : ℕ), n < l.length → (l ++ m).getD n 0 = l.getD n 0 := by
  intro l
  induction l with
  | nil => intro m n h; simp at h
  | cons a t ih =>
      intro m n h
      cases n with
      | zero => rfl
      | succ k =>
          simp only [List.cons_append, List.getD_cons_succ]
          exact ih m k (by simpa using h)

/-- The modelled header is 44 bytes for every sample rate and sample count. -/
theorem wavHeader_length (sr n : ℕ) : (wavHeader sr n).length = 44 := rfl

/-- Each packed sample contributes exactly two bytes. -/
theorem flatMap_packInt16_length (qs : List ℤ) :
    (List.flatMap qs packInt16).length = 2 * qs.length := by
  induction qs with
  | nil => rfl
  | cons a t ih =>
      simp only [List.flatMap_cons, List.length_append, List.length_cons, ih]
      show 2 + 2 * t.length = 2 * (t.length + 1)
      ring

/-- Total container size: 44 header bytes plus two bytes per sample. -/
theorem wavBytes_length (sr : ℕ) (qs : List ℤ) :
    (wavBytes sr qs).length = 44 + 2 * qs.length := by
  unfold wavBytes
  rw [List.length_append, wavHeader_length, flatMap_packInt16_length]

/-- Flattening the per-sample byte lists is the flatMap form of the payload. -/
theorem flatten_map_packInt16 (qs : List ℤ) :
    (qs.map packInt16).flatten = List.flatMap qs packInt16 := by
  induction qs with
  | nil => rfl
  | cons a t ih => simp only [List.map_cons, List.flatten_cons, List.flatMap_cons, ih]

/-- A complete, unfailed write sequence produces exactly the container bytes. -/
theorem writeChunks_flatten (qs : List ℤ) : (writeChunks qs).flatten = wavBytes 44100 qs := by
  unfold writeChunks wavBytes
  rw [List.flatten_cons, flatten_map_packInt16]

/-- Every individual write is at least two bytes long. -/
theorem writeChunks_chunk_len {qs : List ℤ} {c : List ℕ} (hc : c ∈ writeChunks qs) :
    2 ≤ c.length := by
  unfold writeChunks at hc
  rcases List.mem_cons.mp hc with h | h
  · rw [h, wavHeader_length]
    omega
  · obtain ⟨z, _, rfl⟩ := List.mem_map.mp h
    exact le_rfl

/-- Cutting the write sequence short anywhere leaves strictly fewer bytes
than the complete container. -/
theorem flatten_take_length_lt (qs : List ℤ) (k : ℕ) (hk : k < (writeChunks qs).length) :
    ((writeChunks qs).take k).flatten.length < 44 + 2 * qs.length := by
  have hfull : (writeChunks qs).flatten.length = 44 + 2 * qs.length := by
    rw [writeChunks_flatten, wavBytes_length]
  have h2 : ((writeChunks qs).take k ++ (writeChunks qs).drop k).flatten.length =
      44 + 2 * qs.length := by
    rw [List.take_append_drop]
    exact hfull
  rw [List.flatten_append, List.length_append] at h2
  have hdrop : 2 ≤ ((writeChunks qs).drop k).flatten.length := by
    cases hd : (writeChunks qs).drop k with
    | nil =>
        exfalso
        have := List.drop_eq_nil_iff.mp hd
        omega
    | cons c rest =>
        have hcmem : c ∈ writeChunks qs := by
          have hmem : c ∈ (writeChunks qs).drop k := by
            rw [hd]
            exact List.mem_cons_self c rest
          exact List.mem_of_mem_drop hmem
        have hcl := writeChunks_chunk_len hcmem
        rw [List.flatten_cons, List.length_append]
        omega
  omega

/-- Reading two bytes at an in-header offset ignores the payload. -/
theorem readLE16_header (qs : List ℤ) (hn : qs.length = 6615) (o : ℕ) (ho : o + 1 < 44) :
    readLE16 (wavBytes 44100 qs) o = readLE16 (wavHeader 44100 6615) o := by
  unfold wavBytes readLE16
  rw [hn]
  rw [getD_append_left_aux _ _ o (by rw [wavHeader_length]; omega),
    getD_append_left_aux _ _ (o + 1) (by rw [wavHeader_length]; omega)]

/-- Round trip of the 2-byte little-endian signed encoding on the 16-bit
range. -/
theorem packInt16_decode (z : ℤ) (h1 : -32768 ≤ z) (h2 : z ≤ 32767) :
    (packInt16 z).length = 2 ∧ decodeInt16 (packInt16 z) = z := by
  refine ⟨rfl, ?_⟩
  unfold decodeInt16 packInt16 le16 readLE16
  simp only [List.getD_cons_zero, List.getD_cons_succ]
  split_ifs <;> omega

/-- C4: counterexample to the claim as stated.  The code opens the final
destination path directly and writes incrementally: when the write after the
header fails (write index 1), the error does surface, but a 44-byte partial
file — not the complete 46-byte container for one sample — remains visible at
the destination path. -/
theorem c4_counterexample :
    (runClunk ⟨["a"], "x.wav"⟩ [] (some 1) [5]).res = .error .ioFailure ∧
      (runClunk ⟨["a"], "x.wav"⟩ [] (some 1) [5]).fileAt = some (wavHeader 44100 1) ∧
      (wavHeader 44100 1).length = 44 ∧
      (wavBytes 44100 [5]).length = 46 ∧ (44 : ℕ) ≠ 46 := by
  refine ⟨rfl, ?_, rfl, rfl, by decide⟩
  rfl

/-- C4: amended claim.  On an injected I/O failure at any point of the write
sequence the underlying error is surfaced to the caller, but because the code
writes directly to the final path, the bytes already written stay visible
there as a partial file, strictly shorter than the complete container. -/
theorem c4_partial_file_on_failure :
    ∀ (p : Filepath) (dirs0 : List (List String)) (qs : List ℤ) (k : ℕ),
      p.dirs ≠ [] → k < (writeChunks qs).length →
      (runClunk p dirs0 (some k) qs).res = .error .ioFailure ∧
        (runClunk p dirs0 (some k) qs).fileAt = some ((writeChunks qs).take k).flatten ∧
        ((writeChunks qs).take k).flatten.length < 44 + 2 * qs.length := by
  intro p dirs0 qs k hp hk
  have hrun : runClunk p dirs0 (some k) qs =
      ⟨.error .ioFailure, dirs0 ++ ancestors p.dirs, some ((writeChunks qs).take k).flatten⟩ := by
    unfold runClunk
    rw [if_neg hp]
    simp only [if_pos hk]
  rw [hrun]
  exact ⟨rfl, rfl, flatten_take_length_lt qs k hk⟩

/-- C4: witness where the very first write (the header) fails: the error is
surfaced and an empty file is left visible at the destination. -/
theorem c4_witness :
    (⟨["a"], "x.wav"⟩ : Filepath).dirs ≠ [] ∧ 0 < (writeChunks [3]).length ∧
      (runClunk ⟨["a"], "x.wav"⟩ [] (some 0) [3]).res = .error .ioFailure ∧
      (runClunk ⟨["a"], "x.wav"⟩ [] (some 0) [3]).fileAt =
        some ((writeChunks [3]).take 0).flatten ∧
      ((writeChunks [3]).take 0).flatten.length < 44 + 2 * ([3] : List ℤ).length := by
  have h1 : (⟨["a"], "x.wav"⟩ : Filepath).dirs ≠ [] := by simp
  have h2 : 0 < (writeChunks [3]).length := by
    unfold writeChunks
    simp
  have hc := c4_partial_file_on_failure ⟨["a"], "x.wav"⟩ [] [3] 0 h1 h2
  exact ⟨h1, h2, hc.1, hc.2.1, hc.2.2⟩

/-- C9: confirmed.  A successful run with the default parameters (any sample
list of length int(44100 × 0.15) = 6615) produces exactly the container
bytes: 44 + 2·6615 bytes total, a header declaring 1 channel, 16 bits per
sample, sample rate 44100 and a data-chunk payload of 2·6615 bytes, followed
by each quantized sample as a 2-byte little-endian signed integer in
generation order (the encoding decodes back on the whole 16-bit range). -/
theorem c9_container :
    ∀ (p : Filepath) (dirs0 : List (List String)) (qs : List ℤ),
      p.dirs ≠ [] → qs.length = (n_samples sample_rate duration).toNat →
      (runClunk p dirs0 none qs).res = .ok () ∧
        (runClunk p dirs0 none qs).fileAt = some (wavBytes 44100 qs) ∧
        (wavBytes 44100 qs).length = 44 + 2 * 6615 ∧
        readLE16 (wavBytes 44100 qs) 22 = 1 ∧
        readLE16 (wavBytes 44100 qs) 34 = 16 ∧
        readLE32 (wavBytes 44100 qs) 24 = 44100 ∧
        readLE32 (wavBytes 44100 qs) 40 = 2 * 6615 ∧
        (wavBytes 44100 qs).drop 44 = List.flatMap qs packInt16 ∧
        ∀ z : ℤ, -32768 ≤ z → z ≤ 32767 →
          (packInt16 z).length = 2 ∧ decodeInt16 (packInt16 z) = z := by
  intro p dirs0 qs hp hlen
  have hn : qs.length = 6615 := by
    rw [hlen, n_samples_default]
    rfl
  have hrun : runClunk p dirs0 none qs =
      ⟨.ok (), dirs0 ++ ancestors p.dirs, some (writeChunks qs).flatten⟩ := by
    unfold runClunk
    rw [if_neg hp]
  refine ⟨by rw [hrun], ?_, ?_, ?_, ?_, ?_, ?_, ?_, packInt16_decode⟩
  · rw [hrun]
    show some (writeChunks qs).flatten = some (wavBytes 44100 qs)
    rw [writeChunks_flatten]
  · rw [wavBytes_length, hn]
  · rw [readLE16_header qs hn 22 (by omega)]
    decide
  · rw [readLE16_header qs hn 34 (by omega)]
    decide
  · unfold readLE32
    rw [readLE16_header qs hn 24 (by omega), readLE16_header qs hn 26 (by omega)]
    decide
  · unfold readLE32
    rw [readLE16_header qs hn 40 (by omega), readLE16_header qs hn 42 (by omega)]
    decide
  · unfold wavBytes
    rw [show (44:ℕ) = (wavHeader 44100 qs.length).length from (wavHeader_length _ _).symm,
      List.drop_left]

/-- C9: witness on a concrete run over 6615 zero samples. -/
theorem c9_witness :
    (List.replicate 6615 (0:ℤ)).length = (n_samples sample_rate duration).toNat ∧
      (runClunk ⟨["assets"], "clunk.wav"⟩ [] none (List.replicate 6615 0)).res = .ok () ∧
      (wavBytes 44100 (List.replicate 6615 0)).length = 44 + 2 * 6615 ∧
      readLE16 (wavBytes 44100 (List.replicate 6615 0)) 22 = 1 := by
  have h2 : (List.replicate 6615 (0:ℤ)).length = (n_samples sample_rate duration).toNat := by
    rw [List.length_replicate, n_samples_default]
    rfl
  have hc := c9_container ⟨["assets"], "clunk.wav"⟩ [] (List.replicate 6615 0) (by simp) h2
  exact ⟨h2, hc.1, hc.2.2.1, hc.2.2.2.1⟩

/-- C10: confirmed.  For a destination whose directory component is
non-empty, the run (absent injected I/O failure) succeeds and every ancestor
directory of the destination exists afterwards, whatever directories already
existed; for a bare filename (empty directory component) the
directory-creation step itself fails, before any container I/O — no file is
ever created at the destination. -/
theorem c10_directory_preparation :
    ∀ (p : Filepath) (dirs0 : List (List String)) (failAt : Option ℕ) (qs : List ℤ),
      (p.dirs ≠ [] →
        (runClunk p dirs0 none qs).res = .ok () ∧
          ∀ d ∈ ancestors p.dirs, d ∈ (runClunk p dirs0 none qs).dirsAfter) ∧
      (p.dirs = [] →
        (runClunk p dirs0 failAt qs).res = .error .emptyDirname ∧
          (runClunk p dirs0 failAt qs).fileAt = none) := by
  intro p dirs0 failAt qs
  constructor
  · intro hp
    have hrun : runClunk p dirs0 none qs =
        ⟨.ok (), dirs0 ++ ancestors p.dirs, some (writeChunks qs).flatten⟩ := by
      unfold runClunk
      rw [if_neg hp]
    rw [hrun]
    exact ⟨rfl, fun d hd => List.mem_append_right dirs0 hd⟩
  · intro hp
    have hrun : runClunk p dirs0 failAt qs = ⟨.error .emptyDirname, dirs0, none⟩ := by
      unfold runClunk
      rw [if_pos hp]
    rw [hrun]
    exact ⟨rfl, rfl⟩

/-- C10: witness: a two-level destination with one level already existing
succeeds and both ancestor directories exist afterwards; a bare filename
fails with the directory-creation error and creates no file. -/
theorem c10_witness :
    (⟨["a", "b"], "f.wav"⟩ : Filepath).dirs ≠ [] ∧
      (runClunk ⟨["a", "b"], "f.wav"⟩ [["a"]] none []).res = .ok () ∧
      ["a", "b"] ∈ (runClunk ⟨["a", "b"], "f.wav"⟩ [["a"]] none []).dirsAfter ∧
      (runClunk ⟨[], "f.wav"⟩ [] (some 0) [1]).res = .error .emptyDirname ∧
      (runClunk ⟨[], "f.wav"⟩ [] (some 0) [1]).fileAt = none := by
  have h1 : (⟨["a", "b"], "f.wav"⟩ : Filepath).dirs ≠ [] := by simp
  have hA := (c10_directory_preparation ⟨["a", "b"], "f.wav"⟩ [["a"]] none []).1 h1
  have hB := (c10_directory_preparation ⟨[], "f.wav"⟩ [] (some 0) [1]).2 rfl
  refine ⟨h1, hA.1, hA.2 ["a", "b"] ?_, hB.1, hB.2⟩
  simp [ancestors]

end VoxelCraft
